import Mathlib

/-!
Verification of the devtools artifact-resolution service.

This file gives a shallow embedding, in Lean, of the Python modules
`pipelines.py`, `versions.py`, `files.py` and `storage_helper.py` of the
repository, and proves (or refutes) the specification claims about them.

Modelling conventions:
* The three outcome sentinels `CONTINUE_SEARCH`, `DOES_NOT_EXIST` and a
  content value are modelled by the inductive `Response`.
* Object storage (a Google Cloud Storage bucket) is modelled as a function
  `String → Option v` from blob names to blob contents; `download_blob`
  (which maps the NotFound exception to `None`) is exactly application of
  that function.
* Python exceptions that escape a function are modelled with `Except`:
  `Except.error` marks a raised exception, `Except.ok` a normal return.
* Python `re` semantics are modelled structurally; in particular `$`
  (without `re.MULTILINE`) matches at the end of the string OR just before
  a single newline at the end of the string, which the combinator
  `dollarAnchored` reproduces.
* Machine text is modelled as `String` / `List Char`; raw bytes (HTTP
  bodies) as `List Nat`.
-/

deriving instance DecidableEq for Except

namespace Pipelines

/-- The three-valued provider outcome of `pipelines.py`: the sentinels
`CONTINUE_SEARCH` and `DOES_NOT_EXIST`, or retrieved content. -/
inductive Response (α : Type) where
  | continueSearch
  | doesNotExist
  | found (a : α)
deriving DecidableEq, Repr

/-- `true` exactly when the response is the `CONTINUE_SEARCH` sentinel
(the `response is not CONTINUE_SEARCH` test of `Pipeline.retrieve`). -/
def Response.isContinue {α : Type} : Response α → Bool
  | .continueSearch => true
  | _ => false

/-- The payload carried by a response: `some x` for `found x`, otherwise
`none` (this is the `content` computation of `Pipeline.retrieve`,
which maps both sentinels to Python `None`). -/
def Response.payload {α : Type} : Response α → Option α
  | .found x => some x
  | _ => none

/-- Index of the first provider whose response is not `CONTINUE_SEARCH`
(the "winner" of the search), if any.  Specification vocabulary used to
state the claims about `Pipeline.retrieve`. -/
def firstStopIdx {α : Type} : List (Response α) → Option Nat
  | [] => none
  | r :: rest =>
    match r with
    | .continueSearch => (firstStopIdx rest).map (· + 1)
    | _ => some 0

/-- The `for idx, active_provider in enumerate(self.providers): ... else:`
loop of `Pipeline.retrieve` (pipelines.py:98-103), for a non-empty provider
list whose first element carries index `i`.  A provider is represented by
the response its `retrieve` returns.  Result:
`(retrieve-call log, idx, active provider index or None, response)`;
on normal loop completion (the `else:` branch) `idx` is the last index,
the active provider is `None` and `response` is the last (continue)
response, exactly as in the Python. -/
def pipelineScan {α : Type} : List (Response α) → Nat → List Nat × Nat × Option Nat × Response α
  | [], i => ([], i, none, Response.continueSearch)
  | r :: rest, i =>
    match r with
    | .continueSearch =>
      match rest with
      | [] => ([i], i, none, Response.continueSearch)
      | r' :: rest' =>
        let t := pipelineScan (r' :: rest') (i + 1)
        (i :: t.1, t.2)
    | _ => ([i], i, some i, r)

/-- `Pipeline.retrieve` (pipelines.py:80-127).  Providers are represented
by the responses their `retrieve` calls return; the result is
`(returned content, retrieve-call log, process_response-call log)` where the
process log lists, in call order, `(provider index, active provider index
or None, content)` for each `provider.process_response(active_provider,
params, content)` call of the reverse pass `self.providers[idx::-1]`. -/
def Pipeline.retrieve {α : Type} (resps : List (Response α)) :
    Option α × List Nat × List (Nat × Option Nat × Option α) :=
  match resps with
  | [] => (none, [], [])
  | r :: rest =>
    let t := pipelineScan (r :: rest) 0
    let content : Option α := t.2.2.2.payload
    (content, t.1, ((List.range (t.2.1 + 1)).reverse).map fun j => (j, t.2.2.1, content))

end Pipelines

namespace Versions

open Pipelines

/-- Python `$` anchoring (no `re.MULTILINE`): `re.match(r"^core$", s)`
succeeds iff `core` matches all of `s`, or all of `s` minus a single
trailing newline. -/
def dollarAnchored (core : List Char → Bool) (cs : List Char) : Bool :=
  core cs ||
    match cs.getLast? with
    | some c => c = '\n' && core cs.dropLast
    | none => false

/-- A (possibly empty) run of ASCII digits: the regex `\d*`. -/
def digitsOnly (cs : List Char) : Bool := cs.all Char.isDigit

/-- The regex `[1-9]\d*`: a non-empty digit run without a leading zero. -/
def nzNumeral (cs : List Char) : Bool :=
  match cs with
  | [] => false
  | c :: rest => ('1' ≤ c && c ≤ '9') && digitsOnly rest

/-- Python `str.split(sep)` for a one-character separator. -/
def splitOnChar (sep : Char) : List Char → List (List Char)
  | [] => [[]]
  | c :: cs =>
    if c = sep then [] :: splitOnChar sep cs
    else
      match splitOnChar sep cs with
      | [] => [[c]]
      | g :: gs => (c :: g) :: gs

/-- Body of `VERSION_PATTERN = ^[1-9]\d*\.\d*\.[1-9]\d*\.\d*$`
(versions.py:28): four dot-separated components, the first and third
non-empty without leading zero, the second and fourth arbitrary
(possibly empty) digit runs. -/
def coreVersionMatch (cs : List Char) : Bool :=
  match splitOnChar '.' cs with
  | [a, b, c, d] => nzNumeral a && digitsOnly b && nzNumeral c && digitsOnly d
  | _ => false

/-- `VERSION_PATTERN.match(version) is not None`. -/
def versionPatternMatch (version : String) : Bool :=
  dollarAnchored coreVersionMatch version.data

/-- Python whitespace characters stripped by `int(str)`. -/
def pyWhitespace (c : Char) : Bool :=
  c = ' ' || c = '\t' || c = '\n' || c = '\r' || c = '\x0b' || c = '\x0c'

/-- Big-endian digit-run to number conversion. -/
def digitsToNat (cs : List Char) : Nat :=
  cs.foldl (fun acc c => acc * 10 + (c.toNat - 48)) 0

/-- Python `int(s)` restricted to the strings that can reach it here
(digit runs, possibly with surrounding whitespace such as a trailing
newline): strip whitespace, then parse a non-empty digit run; anything
else raises `ValueError`. -/
def pyIntChars (cs : List Char) : Except Unit Nat :=
  let t := (cs.dropWhile pyWhitespace).reverse.dropWhile pyWhitespace |>.reverse
  if t ≠ [] ∧ digitsOnly t then Except.ok (digitsToNat t) else Except.error ()

/-- Little-endian decimal digit characters of `n`, with explicit fuel so
that the definition is structurally recursive. -/
def natDecimalAux : Nat → Nat → List Char
  | 0, _ => []
  | fuel + 1, n => if n = 0 then [] else Nat.digitChar (n % 10) :: natDecimalAux fuel (n / 10)

/-- Python `str(n)` for a natural number: its decimal digit characters. -/
def natDecimal (n : Nat) : List Char :=
  if n = 0 then ['0'] else (natDecimalAux n n).reverse

/-- Python `sep.join(parts)` for a one-character separator. -/
def joinChar (sep : Char) : List (List Char) → List Char
  | [] => []
  | [x] => x
  | x :: y :: xs => x ++ sep :: joinChar sep (y :: xs)

/-- `is_valid_version` (versions.py:34-41).  Returns `Except.error ()`
when the Python raises `ValueError` (from `int(part)`); otherwise
`Except.ok` of the boolean result.  The reconstruction compares
`version` with `f"{major}.{minor}.{build}.{patch}"`. -/
def is_valid_version (version : String) : Except Unit Bool :=
  if !versionPatternMatch version then Except.ok false
  else
    match (splitOnChar '.' version.data).mapM pyIntChars with
    | Except.error e => Except.error e
    | Except.ok [major, minor, build, patch] =>
      Except.ok
        (decide (version.data =
          natDecimal major ++ '.' :: natDecimal minor ++ '.' :: natDecimal build ++
            '.' :: natDecimal patch))
    | Except.ok _ => Except.error ()

/-- A lowercase hexadecimal character: the class `[0-9a-f]`. -/
def hexLower (c : Char) : Bool := c.isDigit || ('a' ≤ c && c ≤ 'f')

/-- The regex `[0-9a-f]{n}`: exactly `n` lowercase hex characters. -/
def matchHexCount : Nat → List Char → Bool
  | 0, [] => true
  | 0, _ :: _ => false
  | _ + 1, [] => false
  | n + 1, c :: cs => hexLower c && matchHexCount n cs

/-- `is_valid_revision` (versions.py:44-50):
`re.match(r"^[0-9a-f]{length}$", revision) is not None`. -/
def is_valid_revision (revision : String) (length : Nat) : Bool :=
  dollarAnchored (matchHexCount length) revision.data

/-- `LocalMemoryProvider.retrieve` (versions.py:67-69):
`version_by_revision.get(revision, CONTINUE_SEARCH) or DOES_NOT_EXIST`.
The dict may hold `None` (cached negative results), modelled by
`some none`; the Python `or` keeps a truthy value and otherwise yields
`DOES_NOT_EXIST`, so a missing key gives the (truthy) `CONTINUE_SEARCH`
sentinel while a cached `None` or empty string collapses to
`DOES_NOT_EXIST`. -/
def localMemory_retrieve (version_by_revision : String → Option (Option String))
    (revision : String) : Response String :=
  match version_by_revision revision with
  | none => Response.continueSearch
  | some none => Response.doesNotExist
  | some (some v) => if v = "" then Response.doesNotExist else Response.found v

/-- `versions.LocalBucketProvider.retrieve` (versions.py:92-98): fetch
`version_by_revision/<revision>`; a missing blob is `CONTINUE_SEARCH`,
otherwise the decoded content is returned (whatever its truthiness). -/
def versionsLocalBucket_retrieve (bucket : String → Option String)
    (revision : String) : Response String :=
  match bucket ("version_by_revision/" ++ revision) with
  | none => Response.continueSearch
  | some blob => Response.found blob

end Versions

namespace StorageHelper

/-- One entry of the `errors` array in a Google Cloud Storage error
response (the fields `upload_from_string` inspects). -/
structure GcsErrorItem where
  reason : String
  location : String
deriving DecidableEq, Repr

/-- The storage client's `blob.upload_from_string(content,
if_generation_match=0)`: a conditional create that succeeds only when no
object exists under the key, and otherwise raises `PreconditionFailed`
whose error list carries `reason == "conditionNotMet"`,
`location == "If-Match"`. -/
def gcsConditionalCreate {v : Type} (store : String → Option v) (key : String)
    (content : v) : Except (List GcsErrorItem) (String → Option v) :=
  match store key with
  | some _ => Except.error [⟨"conditionNotMet", "If-Match"⟩]
  | none => Except.ok fun k => if k = key then some content else store k

/-- `upload_from_string` (storage_helper.py:21-31): perform the
conditional create; a `PreconditionFailed` whose errors contain a
`conditionNotMet`/`If-Match` entry is swallowed (normal return, store
unchanged), any other exception is re-raised. -/
def upload_from_string {v : Type} (store : String → Option v) (key : String)
    (content : v) : Except (List GcsErrorItem) (String → Option v) :=
  match gcsConditionalCreate store key content with
  | Except.ok s => Except.ok s
  | Except.error errors =>
    if errors.any fun e => e.reason = "conditionNotMet" && e.location = "If-Match" then
      Except.ok store
    else Except.error errors

end StorageHelper

namespace Versions

open Pipelines StorageHelper

/-- `versions.LocalBucketProvider.process_response` (versions.py:100-106):
skip when the winner is this provider itself or the version is `None`;
otherwise conditionally create `version_by_revision/<revision>`. -/
def versionsLocalBucket_process_response (store : String → Option String)
    (providerIsSelf : Bool) (revision : String) (version : Option String) :
    Except (List GcsErrorItem) (String → Option String) :=
  if providerIsSelf then Except.ok store
  else
    match version with
    | none => Except.ok store
    | some v => upload_from_string store ("version_by_revision/" ++ revision) v

/-- Value of a base64-alphabet byte, `none` for bytes outside the
alphabet. -/
def b64CharVal (b : Nat) : Option Nat :=
  if 65 ≤ b ∧ b ≤ 90 then some (b - 65)
  else if 97 ≤ b ∧ b ≤ 122 then some (b - 97 + 26)
  else if 48 ≤ b ∧ b ≤ 57 then some (b - 48 + 52)
  else if b = 43 then some 62
  else if b = 47 then some 63
  else none

/-- Decode a run of 6-bit base64 values into bytes (3 bytes per full
group of 4, then 1 or 2 bytes from a trailing group of 2 or 3). -/
def b64Groups : List Nat → List Nat
  | a :: b :: c :: d :: rest =>
    (a * 4 + b / 16) :: ((b % 16) * 16 + c / 4) :: ((c % 4) * 64 + d) :: b64Groups rest
  | [a, b] => [a * 4 + b / 16]
  | [a, b, c] => [a * 4 + b / 16, (b % 16) * 16 + c / 4]
  | _ => []

/-- `base64.b64decode` (with default non-validating behaviour): bytes
outside the alphabet and padding are discarded, the data run before the
first `=` is decoded, and a `binascii.Error` ("Incorrect padding") is
raised when the meaningful length is not a multiple of 4 or the data run
length is `1 mod 4`. -/
def pyB64Decode (bs : List Nat) : Except Unit (List Nat) :=
  let meaningful := bs.filter fun b => (b64CharVal b).isSome || b = 61
  let dataVals := (meaningful.takeWhile fun b => b ≠ 61).filterMap b64CharVal
  if meaningful.length % 4 ≠ 0 then Except.error ()
  else if dataVals.length % 4 = 1 then Except.error ()
  else Except.ok (b64Groups dataVals)

/-- A UTF-8 continuation byte. -/
def utf8Cont (b : Nat) : Bool := 128 ≤ b && b ≤ 191

/-- Strict UTF-8 decoding of a byte list, as Python
`bytes.decode("utf-8")`; a malformed sequence raises
`UnicodeDecodeError`, modelled as `Except.error`. -/
def pyUtf8Decode : List Nat → Except Unit (List Char)
  | [] => Except.ok []
  | b :: rest =>
    if b ≤ 127 then do
      let cs ← pyUtf8Decode rest
      Except.ok (Char.ofNat b :: cs)
    else if 194 ≤ b ∧ b ≤ 223 then
      match rest with
      | c1 :: rest' =>
        if utf8Cont c1 then do
          let cs ← pyUtf8Decode rest'
          Except.ok (Char.ofNat ((b - 192) * 64 + (c1 - 128)) :: cs)
        else Except.error ()
      | _ => Except.error ()
    else if 224 ≤ b ∧ b ≤ 239 then
      match rest with
      | c1 :: c2 :: rest' =>
        let lowOk :=
          if b = 224 then 160 ≤ c1 && c1 ≤ 191
          else if b = 237 then 128 ≤ c1 && c1 ≤ 159
          else utf8Cont c1
        if lowOk && utf8Cont c2 then do
          let cs ← pyUtf8Decode rest'
          Except.ok (Char.ofNat ((b - 224) * 4096 + (c1 - 128) * 64 + (c2 - 128)) :: cs)
        else Except.error ()
      | _ => Except.error ()
    else if 240 ≤ b ∧ b ≤ 244 then
      match rest with
      | c1 :: c2 :: c3 :: rest' =>
        let lowOk :=
          if b = 240 then 144 ≤ c1 && c1 ≤ 191
          else if b = 244 then 128 ≤ c1 && c1 ≤ 143
          else utf8Cont c1
        if lowOk && utf8Cont c2 && utf8Cont c3 then do
          let cs ← pyUtf8Decode rest'
          Except.ok
            (Char.ofNat
              ((b - 240) * 262144 + (c1 - 128) * 4096 + (c2 - 128) * 64 + (c3 - 128)) :: cs)
        else Except.error ()
      | _ => Except.error ()
    else Except.error ()

/-- `l1` with the literal `lit` removed from its front, or `none`. -/
def dropLiteral (lit : List Char) (cs : List Char) : Option (List Char) :=
  if cs.take lit.length = lit then some (cs.drop lit.length) else none

/-- A `\d+` group: the characters themselves when they form a non-empty
digit run. -/
def numeralGroup (cs : List Char) : Option (List Char) :=
  if cs ≠ [] ∧ digitsOnly cs then some cs else none

/-- Body of `VERSION_FILE_PATTERN =
^MAJOR=(\d+)\nMINOR=(\d+)\nBUILD=(\d+)\nPATCH=(\d+)\n$`
(versions.py:29-31); yields the four captured digit groups. -/
def versionFileCore (cs : List Char) :
    Option (List Char × List Char × List Char × List Char) :=
  match splitOnChar '\n' cs with
  | [l1, l2, l3, l4, tail] =>
    if tail = [] then do
      let a ← numeralGroup (← dropLiteral "MAJOR=".data l1)
      let b ← numeralGroup (← dropLiteral "MINOR=".data l2)
      let c ← numeralGroup (← dropLiteral "BUILD=".data l3)
      let d ← numeralGroup (← dropLiteral "PATCH=".data l4)
      some (a, b, c, d)
    else none
  | _ => none

/-- `VERSION_FILE_PATTERN.match(content)` with Python `$` anchoring. -/
def versionFileMatch (cs : List Char) :
    Option (List Char × List Char × List Char × List Char) :=
  match versionFileCore cs with
  | some r => some r
  | none =>
    match cs.getLast? with
    | some c => if c = '\n' then versionFileCore cs.dropLast else none
    | none => none

/-- Outcome of `requests.get(url, timeout=10)` in
`ChromiumRepositoryProvider.retrieve`: a read timeout, a connect timeout
(both enabled by the `timeout` argument), or a response with a status
code and raw body bytes. -/
inductive RepoHttp where
  | readTimeout
  | connectTimeout
  | resp (status : Nat) (content : List Nat)

/-- A Python exception escaping a provider. -/
inductive PyExc where
  | connectTimeout
  | unicodeDecodeError
deriving DecidableEq, Repr

/-- `ChromiumRepositoryProvider.retrieve` (versions.py:159-190).  The
`try` around `requests.get` catches only
`requests.exceptions.ReadTimeout`, so a connect timeout escapes; a 404
is `DOES_NOT_EXIST`; `binascii.Error` from base64 decoding is caught
(`CONTINUE_SEARCH`) but a `UnicodeDecodeError` from `.decode("utf-8")`
is not; an unparsable VERSION file is `CONTINUE_SEARCH`; otherwise the
joined `major.minor.build.patch` groups are returned. -/
def chromiumRepository_retrieve (h : RepoHttp) : Except PyExc (Response String) :=
  match h with
  | RepoHttp.readTimeout => Except.ok Response.continueSearch
  | RepoHttp.connectTimeout => Except.error PyExc.connectTimeout
  | RepoHttp.resp status content =>
    if status = 404 then Except.ok Response.doesNotExist
    else
      match pyB64Decode content with
      | Except.error _ => Except.ok Response.continueSearch
      | Except.ok bytes =>
        match pyUtf8Decode bytes with
        | Except.error _ => Except.error PyExc.unicodeDecodeError
        | Except.ok cs =>
          match versionFileMatch cs with
          | none => Except.ok Response.continueSearch
          | some (a, b, c, d) =>
            Except.ok (Response.found
              (String.mk a ++ "." ++ String.mk b ++ "." ++ String.mk c ++ "." ++ String.mk d))

/-- Outcome of `requests.get(CHROMIUM_DASH_URL + revision).json()` in
`ChromiumDashProvider.retrieve`: any exception (connection error,
timeout, malformed JSON body), or a JSON object modelled as an
association list of string fields. -/
inductive DashHttp where
  | exc
  | json (fields : List (String × String))

/-- First value bound to `key` in the JSON object. -/
def lookupField (fields : List (String × String)) (key : String) : Option String :=
  (fields.find? fun p => p.1 = key).map (·.2)

/-- `ChromiumDashProvider.retrieve` (versions.py:112-138).  The `try`
catches every exception of the request/JSON parse; an `error` field or a
missing `earliest` field is `CONTINUE_SEARCH`; the version is validated
with `is_valid_version` (whose `ValueError`, being outside the `try`,
would propagate). -/
def chromiumDash_retrieve (h : DashHttp) : Except Unit (Response String) :=
  match h with
  | DashHttp.exc => Except.ok Response.continueSearch
  | DashHttp.json fields =>
    match lookupField fields "error" with
    | some _ => Except.ok Response.continueSearch
    | none =>
      match lookupField fields "earliest" with
      | none => Except.ok Response.continueSearch
      | some version =>
        match is_valid_version version with
        | Except.error e => Except.error e
        | Except.ok true => Except.ok (Response.found version)
        | Except.ok false => Except.ok Response.continueSearch

end Versions

namespace Files

open Pipelines StorageHelper Versions

/-- Python `str.strip(c)` for a one-character strip set: remove every
leading and trailing occurrence of `c`. -/
def pyStripChar (c : Char) (cs : List Char) : List Char :=
  ((cs.dropWhile (· = c)).reverse.dropWhile (· = c)).reverse

/-- `LocalBucketProvider.get_local_path` (files.py:57-65). -/
def get_local_path (storage_suffix : Option String) (revision filename : String) : String :=
  match storage_suffix with
  | none => "extracted/" ++ revision ++ "/" ++ filename
  | some suffix => "extracted/" ++ revision ++ "-" ++ suffix ++ "/" ++ filename

/-- `files.LocalBucketProvider.retrieve` (files.py:67-75). -/
def filesLocalBucket_retrieve {v : Type} (bucket : String → Option v)
    (storage_suffix : Option String) (params : String × String) : Response v :=
  match bucket (get_local_path storage_suffix params.1 params.2) with
  | none => Response.continueSearch
  | some blob => Response.found blob

/-- `files.LocalBucketProvider.process_response` (files.py:77-87): skip
when the winner is this provider itself or the content is `None`;
otherwise conditionally create the local path. -/
def filesLocalBucket_process_response {v : Type} (store : String → Option v)
    (storage_suffix : Option String) (providerIsSelf : Bool)
    (params : String × String) (content : Option v) :
    Except (List GcsErrorItem) (String → Option v) :=
  if providerIsSelf then Except.ok store
  else
    match content with
    | none => Except.ok store
    | some c =>
      upload_from_string store (get_local_path storage_suffix params.1 params.2) c

/-- Python `s.split(":", maxsplit=1)` followed by unpacking into two
names: `none` models the `ValueError` raised when there is no colon. -/
def splitColonOnce (s : String) : Option (String × String) :=
  match splitOnChar ':' s.data with
  | [] => none
  | [_] => none
  | x :: rest => some (String.mk x, String.mk (joinChar ':' rest))

/-- The hash-search loop of `LegacyM99FilesProvider.retrieve`
(files.py:408-412): first manifest entry whose filename (the part after
the first colon) equals `name`.  `Except.error` models the `ValueError`
from unpacking an entry without a colon. -/
def findFileHash : List String → String → Except Unit (Option String)
  | [], _ => Except.ok none
  | e :: rest, name =>
    match splitColonOnce e with
    | none => Except.error ()
    | some (h, fn) => if fn = name then Except.ok (some h) else findFileHash rest name

/-- `LegacyM99FilesProvider.retrieve` (files.py:394-428).  Blob contents
are modelled as decoded text.  A missing `meta/@<revision>` manifest, a
manifest without an entry for the file, and a missing `hash/<hash>`
object are all `CONTINUE_SEARCH`. -/
def legacyM99Files_retrieve (bucket : String → Option String)
    (params : String × String) : Except Unit (Response String) :=
  match bucket ("meta/@" ++ params.1) with
  | none => Except.ok Response.continueSearch
  | some metaBlob =>
    let hash_entries := (splitOnChar '\n' (pyStripChar '\n' metaBlob.data)).map String.mk
    match findFileHash hash_entries params.2 with
    | Except.error e => Except.error e
    | Except.ok none => Except.ok Response.continueSearch
    | Except.ok (some file_hash) =>
      match bucket ("hash/" ++ file_hash) with
      | none => Except.ok Response.continueSearch
      | some blob => Except.ok (Response.found blob)

/-- One entry of a zip archive, as exposed by `zipfile.ZipInfo`: its
original path, the directory flag, and (for files) its content.  An
archive blob, once fetched and parsed, is its entry list. -/
structure ZipEntry (v : Type) where
  orig_filename : String
  dirFlag : Bool
  content : v

/-- The TOC key `ZIP_TOC_PATH % (bucketname, blobname)` (files.py:91). -/
def zipTocPath (bucketname blobname : String) : String :=
  "tocs/" ++ bucketname ++ "/" ++ blobname

/-- `ZipFileProvider.is_any_file_in_zip` (files.py:112-136): consult the
persisted TOC for the blob; `(false, none)` when no TOC exists,
otherwise `(true, first filename listed in the TOC)`. -/
def is_any_file_in_zip (tocStore : String → Option String)
    (bucketname blobname : String) (filenames : List String) : Bool × Option String :=
  match tocStore (zipTocPath bucketname blobname) with
  | none => (false, none)
  | some toc_blob =>
    let lines := (splitOnChar '\n' (pyStripChar '\n' toc_blob.data)).map String.mk
    (true, filenames.find? fun f => lines.contains f)

/-- `ZipFileProvider.save_zip_toc` (files.py:138-150): persist the
newline-joined non-directory entry names under the TOC key (conditional
create, losers swallowed) and return the path set. -/
def save_zip_toc {v : Type} (tocStore : String → Option String)
    (tocKey : String) (zip_file : List (ZipEntry v)) :
    (String → Option String) × List String :=
  let files := zip_file.filter fun zi => !zi.dirFlag
  let toc := String.join (files.map fun f => f.orig_filename ++ "\n")
  let store' :=
    match upload_from_string tocStore tocKey toc with
    | Except.ok s => s
    | Except.error _ => tocStore
  (store', files.map (·.orig_filename))

/-- `zip_file.read(path)`: content of the named entry; a missing name
raises `KeyError`, modelled as `Except.error`. -/
def zipRead {v : Type} (zip_file : List (ZipEntry v)) (path : String) : Except Unit v :=
  match zip_file.find? fun e => e.orig_filename = path with
  | some e => Except.ok e.content
  | none => Except.error ()

/-- The `for blobname in blobnames:` loop of
`ZipFileProvider.extract_from_zip_blob` (files.py:167-204).  `archives`
maps an archive blob name to its parsed entry list (`none` when the blob
does not exist); `fetchLog` accumulates, in order, every archive blob
name passed to `download_blob(self.bucket, ...)`.  Returns the loop
result, the updated local (TOC) store and the final fetch log. -/
def extractLoop {v : Type} (archives : String → Option (List (ZipEntry v)))
    (bucketname : String) (paths : List String) :
    (String → Option String) → List String → List String →
    Except Unit (Response v) × (String → Option String) × List String
  | tocStore, [], fetchLog => (Except.ok Response.continueSearch, tocStore, fetchLog)
  | tocStore, blobname :: rest, fetchLog =>
    let probe := is_any_file_in_zip tocStore bucketname blobname paths
    if probe.1 && probe.2.isNone then (Except.ok Response.doesNotExist, tocStore, fetchLog)
    else
      match archives blobname with
      | none => extractLoop archives bucketname paths tocStore rest (fetchLog ++ [blobname])
      | some zip_file =>
        let fetchLog' := fetchLog ++ [blobname]
        if probe.1 then
          match probe.2 with
          | some path => ((zipRead zip_file path).map Response.found, tocStore, fetchLog')
          | none => (Except.error (), tocStore, fetchLog')
        else
          let saved := save_zip_toc tocStore (zipTocPath bucketname blobname) zip_file
          match paths.find? fun p => saved.2.contains p with
          | none => (Except.ok Response.doesNotExist, saved.1, fetchLog')
          | some path => ((zipRead zip_file path).map Response.found, saved.1, fetchLog')

/-- `ZipFileProvider.extract_from_zip_blob` (files.py:152-204): build the
candidate full paths (base-directory prefix + filename) and run the
candidate-blob loop with an empty fetch log. -/
def extract_from_zip_blob {v : Type} (archives : String → Option (List (ZipEntry v)))
    (bucketname : String) (base_dirs : List String)
    (tocStore : String → Option String) (blobnames : List String) (filename : String) :
    Except Unit (Response v) × (String → Option String) × List String :=
  extractLoop archives bucketname (base_dirs.map (· ++ filename)) tocStore blobnames []

/-- `LooseVersion(version).version[3]` as used by
`ChromeUnsignedProvider.get_blobnames` (files.py:255-258), modelled for
dotted numeric strings (every string reaching it has been validated):
the fourth numeric component, `none` when the string does not have four
numeric components (where the Python would raise or yield a non-int). -/
def looseVersionPatch (version : String) : Option Nat :=
  match (splitOnChar '.' version.data).map fun cs =>
      if cs ≠ [] ∧ digitsOnly cs then some (digitsToNat cs) else none with
  | [some _, some _, some _, some d] => some d
  | _ => none

/-- `CHROME_UNSIGNED_ARTIFACT_PATH % patch_version` (config.py:14). -/
def chromeUnsignedArtifactPath (patch_version : String) : String :=
  "desktop-5c0tCh/" ++ patch_version ++ "/linux64/devtools-frontend.zip"

/-- The `patch_versions` list of `ChromeUnsignedProvider.get_blobnames`
(files.py:255-259): `".".join(version.split(".")[:3] + [str(patch)])`
for `patch` in `reversed(range(0, v.version[3] + 1))`.  `Except.error`
models the `IndexError`/type failure when the version does not have four
numeric components. -/
def chromeUnsigned_patch_versions (version : String) : Except Unit (List String) :=
  match looseVersionPatch version with
  | none => Except.error ()
  | some p =>
    Except.ok (((List.range (p + 1)).reverse).map fun patch =>
      String.mk (joinChar '.' (((splitOnChar '.' version.data).take 3) ++ [natDecimal patch])))

/-- `ChromeUnsignedProvider.get_blobnames` (files.py:249-264): `[]` for a
`None` version, otherwise the artifact path instantiated at each
candidate patch version. -/
def chromeUnsigned_get_blobnames (version : Option String) : Except Unit (List String) :=
  match version with
  | none => Except.ok []
  | some v => (chromeUnsigned_patch_versions v).map (·.map chromeUnsignedArtifactPath)

end Files

namespace Pipelines

theorem pipelineScan_stop {α : Type} :
    ∀ (resps : List (Response α)) (i k : Nat) (r : Response α),
      firstStopIdx resps = some k → resps.get? k = some r →
      pipelineScan resps i = (List.range' i (k + 1), i + k, some (i + k), r) := by
  intro resps
  induction resps with
  | nil => intro i k r h _; simp [firstStopIdx] at h
  | cons r0 rest ih =>
    intro i k r h hk
    cases r0 with
    | continueSearch =>
      simp only [firstStopIdx, Option.map_eq_some'] at h
      obtain ⟨k', hk', rfl⟩ := h
      cases rest with
      | nil => simp [firstStopIdx] at hk'
      | cons r1 rest1 =>
        have hget : (r1 :: rest1).get? k' = some r := by simpa using hk
        have harith : i + 1 + k' = i + (k' + 1) := by omega
        have := ih (i + 1) k' r hk' hget
        simp [pipelineScan, this, List.range'_succ, harith]
    | doesNotExist =>
      simp only [firstStopIdx, Option.some.injEq] at h
      subst h
      simp only [List.get?] at hk
      cases hk
      simp [pipelineScan, List.range'_one]
    | found x =>
      simp only [firstStopIdx, Option.some.injEq] at h
      subst h
      simp only [List.get?] at hk
      cases hk
      simp [pipelineScan, List.range'_one]

theorem pipelineScan_exhausted {α : Type} :
    ∀ (resps : List (Response α)) (i : Nat), resps ≠ [] → firstStopIdx resps = none →
      pipelineScan resps i =
        (List.range' i resps.length, i + resps.length - 1, none, Response.continueSearch) := by
  intro resps
  induction resps with
  | nil => intro i h _; exact absurd rfl h
  | cons r0 rest ih =>
    intro i _ h
    cases r0 with
    | continueSearch =>
      simp only [firstStopIdx, Option.map_eq_none'] at h
      cases rest with
      | nil => simp [pipelineScan, List.range'_one]
      | cons r1 rest1 =>
        have := ih (i + 1) (by simp) h
        simp [pipelineScan, this, List.range'_succ]
        omega
    | doesNotExist => simp [firstStopIdx] at h
    | found x => simp [firstStopIdx] at h

/-- C1: `Pipeline.retrieve` consults providers in list order exactly up
to the first non-`ContinueSearch` response (the winner, even when that
response is `DoesNotExist`); the returned value is the winner's payload,
which is the carried content exactly for a `found` response and `none`
for `DoesNotExist`; when every provider continues, every provider is
consulted and the result is likewise `none`, so the caller cannot tell
confirmed absence from exhaustion. -/
theorem pipeline_retrieve_first_stop {α : Type} (resps : List (Response α))
    (hne : resps ≠ []) :
    (∀ k r, firstStopIdx resps = some k → resps.get? k = some r →
      (Pipeline.retrieve resps).2.1 = List.range (k + 1) ∧
      (Pipeline.retrieve resps).1 = r.payload) ∧
    (firstStopIdx resps = none →
      (Pipeline.retrieve resps).2.1 = List.range resps.length ∧
      (Pipeline.retrieve resps).1 = none) := by
  obtain ⟨r0, rest, rfl⟩ : ∃ r0 rest, resps = r0 :: rest := by
    cases resps with
    | nil => exact absurd rfl hne
    | cons a l => exact ⟨a, l, rfl⟩
  constructor
  · intro k r h hk
    have hs := pipelineScan_stop (r0 :: rest) 0 k r h hk
    refine ⟨?_, ?_⟩
    · simp [Pipeline.retrieve, hs, List.range_eq_range']
    · simp [Pipeline.retrieve, hs]
  · intro h
    have hs := pipelineScan_exhausted (r0 :: rest) 0 (by simp) h
    refine ⟨?_, ?_⟩
    · simp [Pipeline.retrieve, hs, List.range_eq_range']
    · simp [Pipeline.retrieve, hs, Response.payload]

/-- Closed witness for `pipeline_retrieve_first_stop`. -/
theorem pipeline_retrieve_first_stop_witness :
    (Pipeline.retrieve [Response.continueSearch, Response.found 5,
        Response.continueSearch]).2.1 = List.range 2 ∧
    (Pipeline.retrieve [Response.continueSearch, Response.found 5,
        Response.continueSearch]).1 = some 5 := by
  have h := (pipeline_retrieve_first_stop
    [Response.continueSearch, Response.found 5, Response.continueSearch]
    (by decide)).1 1 (Response.found 5) (by decide) (by decide)
  exact ⟨h.1, h.2⟩

/-- C2: the `process_response` pass.  When the first
non-`ContinueSearch` response has index `k`, exactly the providers
`k, k-1, …, 0` receive `process_response` in that (strictly decreasing)
order, each call carrying the winner index `k` and the computed content;
the call-list equality entails in particular that no provider of index
greater than `k` is called.  When every provider continues, every
provider receives the call with winner and content absent, in reverse
list order. -/
theorem pipeline_process_calls {α : Type} (resps : List (Response α)) :
    (∀ k r, firstStopIdx resps = some k → resps.get? k = some r →
      (Pipeline.retrieve resps).2.2 =
        ((List.range (k + 1)).reverse).map fun j => (j, some k, r.payload)) ∧
    (firstStopIdx resps = none →
      (Pipeline.retrieve resps).2.2 =
        ((List.range resps.length).reverse).map
          fun j => (j, (none : Option Nat), (none : Option α))) := by
  constructor
  · intro k r h hk
    obtain ⟨r0, rest, rfl⟩ : ∃ r0 rest, resps = r0 :: rest := by
      cases resps with
      | nil => simp [firstStopIdx] at h
      | cons a l => exact ⟨a, l, rfl⟩
    have hs := pipelineScan_stop (r0 :: rest) 0 k r h hk
    simp [Pipeline.retrieve, hs]
  · intro h
    cases resps with
    | nil => simp [Pipeline.retrieve]
    | cons r0 rest =>
      have hs := pipelineScan_exhausted (r0 :: rest) 0 (by simp) h
      simp only [Pipeline.retrieve, hs, Response.payload]
      have hlen : 0 + (r0 :: rest).length - 1 + 1 = (r0 :: rest).length := by
        simp
      rw [hlen]

/-- Closed witness for `pipeline_process_calls`. -/
theorem pipeline_process_calls_witness :
    (Pipeline.retrieve [Response.continueSearch, Response.found 5,
        Response.continueSearch]).2.2 = [(1, some 1, some 5), (0, some 1, some 5)] ∧
    (Pipeline.retrieve [(Response.continueSearch : Response Nat),
        Response.continueSearch]).2.2 = [(1, none, none), (0, none, none)] := by
  constructor
  · have h := (pipeline_process_calls
      [Response.continueSearch, Response.found 5, Response.continueSearch]).1
      1 (Response.found 5) (by decide) (by decide)
    simpa using h
  · have h := (pipeline_process_calls
      [(Response.continueSearch : Response Nat), Response.continueSearch]).2 (by decide)
    simpa using h

end Pipelines

namespace StorageHelper

theorem upload_from_string_occupied {v : Type} (store : String → Option v)
    (key : String) (w content : v) (hocc : store key = some w) :
    upload_from_string store key content = Except.ok store := by
  simp [upload_from_string, gcsConditionalCreate, hocc]

theorem upload_from_string_preserves {v : Type} (store : String → Option v)
    (key k : String) (w content : v) (hocc : store k = some w) :
    ∃ store', upload_from_string store key content = Except.ok store' ∧
      store' k = some w := by
  unfold upload_from_string gcsConditionalCreate
  cases hkey : store key with
  | some u => exact ⟨store, by simp, hocc⟩
  | none =>
    refine ⟨_, rfl, ?_⟩
    by_cases hk : k = key
    · rw [hk] at hocc; rw [hocc] at hkey; cases hkey
    · simp [hk, hocc]

/-- C3: durable cache writes are write-once conditional creates.  The
storage primitive used for both the version cache and the
extracted-file cache creates an object only when none exists: when the
key is already occupied, the precondition failure (`conditionNotMet` at
`If-Match`) is swallowed as a success-no-op that leaves the store
untouched; consequently neither `process_response` implementation ever
mutates an existing entry, under any argument combination. -/
theorem cache_writes_are_write_once :
    (∀ (v : Type) (store : String → Option v) (key : String) (w content : v),
      store key = some w →
      upload_from_string store key content = Except.ok store) ∧
    (∀ (store : String → Option String) (providerIsSelf : Bool)
        (revision : String) (version : Option String) (k : String) (w : String),
      store k = some w →
      ∃ store',
        Versions.versionsLocalBucket_process_response store providerIsSelf revision version =
          Except.ok store' ∧ store' k = some w) ∧
    (∀ (v : Type) (store : String → Option v) (storage_suffix : Option String)
        (providerIsSelf : Bool) (params : String × String) (content : Option v)
        (k : String) (w : v),
      store k = some w →
      ∃ store',
        Files.filesLocalBucket_process_response store storage_suffix providerIsSelf
          params content = Except.ok store' ∧ store' k = some w) := by
  refine ⟨fun v store key w content hocc => upload_from_string_occupied store key w content hocc,
    ?_, ?_⟩
  · intro store providerIsSelf revision version k w hocc
    unfold Versions.versionsLocalBucket_process_response
    cases providerIsSelf with
    | true => exact ⟨store, rfl, hocc⟩
    | false =>
      cases version with
      | none => exact ⟨store, rfl, hocc⟩
      | some ver => simpa using upload_from_string_preserves store _ k w ver hocc
  · intro v store storage_suffix providerIsSelf params content k w hocc
    unfold Files.filesLocalBucket_process_response
    cases providerIsSelf with
    | true => exact ⟨store, rfl, hocc⟩
    | false =>
      cases content with
      | none => exact ⟨store, rfl, hocc⟩
      | some c => simpa using upload_from_string_preserves store _ k w c hocc

/-- Closed witness for `cache_writes_are_write_once`. -/
theorem cache_writes_are_write_once_witness :
    (upload_from_string (fun k => if k = "version_by_revision/r1" then some "1.0.1.0" else none)
      "version_by_revision/r1" "2.0.2.0" =
      Except.ok fun k => if k = "version_by_revision/r1" then some "1.0.1.0" else none) ∧
    (∃ store',
      Versions.versionsLocalBucket_process_response
        (fun k => if k = "version_by_revision/r1" then some "1.0.1.0" else none)
        false "r1" (some "2.0.2.0") = Except.ok store' ∧
      store' "version_by_revision/r1" = some "1.0.1.0") ∧
    (∃ store',
      Files.filesLocalBucket_process_response
        (fun k => if k = "extracted/r1/f.js" then some "OLD" else none)
        none false ("r1", "f.js") (some "NEW") = Except.ok store' ∧
      store' "extracted/r1/f.js" = some "OLD") := by
  refine ⟨?_, ?_, ?_⟩
  · exact cache_writes_are_write_once.1 String _ "version_by_revision/r1" "1.0.1.0" "2.0.2.0"
      (by simp)
  · exact cache_writes_are_write_once.2.1 _ false "r1" (some "2.0.2.0")
      "version_by_revision/r1" "1.0.1.0" (by simp)
  · exact cache_writes_are_write_once.2.2 String _ none false ("r1", "f.js") (some "NEW")
      "extracted/r1/f.js" "OLD" (by simp)

end StorageHelper

namespace Files

open Pipelines Versions

/-- C4 counterexample: a revision whose `meta/@<revision>` manifest
exists but has no entry for the requested filename makes
`LegacyM99FilesProvider.retrieve` return `CONTINUE_SEARCH`, not the
`DOES_NOT_EXIST` the claim asserts. -/
theorem legacyM99Files_missing_entry_counterexample :
    legacyM99Files_retrieve
      (fun k => if k = "meta/@abcdef" then some "911f:logo.ico\n" else none)
      ("abcdef", "demo.js") = Except.ok Response.continueSearch ∧
    legacyM99Files_retrieve
      (fun k => if k = "meta/@abcdef" then some "911f:logo.ico\n" else none)
      ("abcdef", "demo.js") ≠ Except.ok Response.doesNotExist := by
  exact ⟨by decide, by decide⟩

/-- C4 (amended): when the per-revision manifest `meta/@<revision>`
exists but contains no entry for the requested filename, the legacy
hash-addressed store provider returns `CONTINUE_SEARCH` (skip), not the
terminal `DOES_NOT_EXIST`; being the last provider of its pipeline, the
request still surfaces as "not found" through exhaustion rather than
through a terminal confirmed-absence result. -/
theorem legacyM99Files_missing_entry_continues (bucket : String → Option String)
    (revision name metaBlob : String)
    (hmeta : bucket ("meta/@" ++ revision) = some metaBlob)
    (hnone : findFileHash
      ((splitOnChar '\n' (pyStripChar '\n' metaBlob.data)).map String.mk) name =
      Except.ok none) :
    legacyM99Files_retrieve bucket (revision, name) =
      Except.ok Response.continueSearch := by
  simp [legacyM99Files_retrieve, hmeta, hnone]

/-- Closed witness for `legacyM99Files_missing_entry_continues`. -/
theorem legacyM99Files_missing_entry_continues_witness :
    legacyM99Files_retrieve
      (fun k => if k = "meta/@e2206c" then some "911f:logo.ico\nf8ab:bg.jpg\n" else none)
      ("e2206c", "demo.js") = Except.ok Response.continueSearch :=
  legacyM99Files_missing_entry_continues
    (fun k => if k = "meta/@e2206c" then some "911f:logo.ico\nf8ab:bg.jpg\n" else none)
    "e2206c" "demo.js" "911f:logo.ico\nf8ab:bg.jpg\n" (by decide) (by decide)

end Files

namespace Versions

open Pipelines

/-- C5: `is_valid_version` is not total.  The version pattern's `\d*`
admits an empty minor component, so `"1..1.0"` passes the regex and the
subsequent `int("")` raises `ValueError` instead of returning a
boolean: the code contradicts the claimed (and intended, per its `->
bool` annotation) pure total validation. -/
theorem is_valid_version_raises_on_empty_component :
    versionPatternMatch "1..1.0" = true ∧
    is_valid_version "1..1.0" = Except.error () :=
  ⟨by decide, by decide⟩

/-- C6 counterexample: `LocalMemoryProvider.retrieve` branches on the
truthiness of the cached value (`... or DOES_NOT_EXIST`), so a cached
valid-but-empty version string is reported as `DOES_NOT_EXIST`,
indistinguishable from a cached negative result. -/
theorem localMemory_empty_content_counterexample :
    localMemory_retrieve (fun r => if r = "rev" then some (some "") else none) "rev" =
      Response.doesNotExist ∧
    localMemory_retrieve (fun r => if r = "rev" then some (some "") else none) "rev" ≠
      Response.found "" :=
  ⟨by decide, by decide⟩

/-- C6 (amended): the sentinels are values disjoint from any content,
and the pipeline and the durable bucket provider branch only on the
tag, so an empty content value is retrieved as a `found` result and
returned by the pipeline as present content — with the exception of
`LocalMemoryProvider`, whose truthiness-based cache read collapses a
cached empty string (like a cached `None`) to `DOES_NOT_EXIST`. -/
theorem sentinels_tag_branching_except_memory_cache :
    (∀ (bucket : String → Option String) (r : String),
      bucket ("version_by_revision/" ++ r) = some "" →
      versionsLocalBucket_retrieve bucket r = Response.found "") ∧
    (∀ (resps : List (Response String)) (k : Nat),
      firstStopIdx resps = some k → resps.get? k = some (Response.found "") →
      (Pipeline.retrieve resps).1 = some "") ∧
    (∀ (cache : String → Option (Option String)) (r : String),
      cache r = some (some "") → localMemory_retrieve cache r = Response.doesNotExist) := by
  refine ⟨?_, ?_, ?_⟩
  · intro bucket r h
    simp [versionsLocalBucket_retrieve, h]
  · intro resps k hidx hget
    obtain ⟨r0, rest, rfl⟩ : ∃ r0 rest, resps = r0 :: rest := by
      cases resps with
      | nil => simp [firstStopIdx] at hidx
      | cons a l => exact ⟨a, l, rfl⟩
    have hs := pipelineScan_stop (r0 :: rest) 0 k (Response.found "") hidx hget
    simp [Pipeline.retrieve, hs, Response.payload]
  · intro cache r h
    simp [localMemory_retrieve, h]

/-- Closed witness for `sentinels_tag_branching_except_memory_cache`. -/
theorem sentinels_tag_branching_except_memory_cache_witness :
    versionsLocalBucket_retrieve
      (fun k => if k = "version_by_revision/r1" then some "" else none) "r1" =
      Response.found "" ∧
    (Pipeline.retrieve [Response.found ""]).1 = some "" ∧
    localMemory_retrieve (fun r => if r = "r1" then some (some "") else none) "r1" =
      Response.doesNotExist := by
  refine ⟨?_, ?_, ?_⟩
  · exact sentinels_tag_branching_except_memory_cache.1
      (fun k => if k = "version_by_revision/r1" then some "" else none) "r1" (by decide)
  · exact sentinels_tag_branching_except_memory_cache.2.1 [Response.found ""] 0
      (by decide) (by decide)
  · exact sentinels_tag_branching_except_memory_cache.2.2
      (fun r => if r = "r1" then some (some "") else none) "r1" (by decide)

/-- C7 counterexample: `ChromiumRepositoryProvider.retrieve` catches
only `requests.exceptions.ReadTimeout`; a connect timeout (also enabled
by the `timeout=10` argument, but a `ConnectTimeout`, which is not a
`ReadTimeout`) propagates out of the provider instead of being mapped
to `CONTINUE_SEARCH`. -/
theorem chromiumRepository_connect_timeout_counterexample :
    chromiumRepository_retrieve RepoHttp.connectTimeout =
      Except.error PyExc.connectTimeout ∧
    chromiumRepository_retrieve RepoHttp.connectTimeout ≠
      Except.ok Response.continueSearch :=
  ⟨rfl, by decide⟩

/-- C7 (amended): the repository provider maps a read timeout, content
that fails base64 decoding, and decoded content that does not match the
VERSION-file pattern to `CONTINUE_SEARCH`, and an HTTP 404 to the
terminal `DOES_NOT_EXIST`; the chromiumdash provider's catch-all maps
any retrieval or JSON-parsing exception (timeouts included) to
`CONTINUE_SEARCH`.  A connect timeout, caught only by the chromiumdash
provider's catch-all, propagates out of the repository provider. -/
theorem remote_version_provider_error_mapping :
    chromiumRepository_retrieve RepoHttp.readTimeout = Except.ok Response.continueSearch ∧
    (∀ content, chromiumRepository_retrieve (RepoHttp.resp 404 content) =
      Except.ok Response.doesNotExist) ∧
    (∀ status content, status ≠ 404 → pyB64Decode content = Except.error () →
      chromiumRepository_retrieve (RepoHttp.resp status content) =
        Except.ok Response.continueSearch) ∧
    (∀ status content bytes cs, status ≠ 404 → pyB64Decode content = Except.ok bytes →
      pyUtf8Decode bytes = Except.ok cs → versionFileMatch cs = none →
      chromiumRepository_retrieve (RepoHttp.resp status content) =
        Except.ok Response.continueSearch) ∧
    chromiumDash_retrieve DashHttp.exc = Except.ok Response.continueSearch := by
  refine ⟨rfl, fun content => by simp [chromiumRepository_retrieve], ?_, ?_, rfl⟩
  · intro status content h404 hb64
    simp [chromiumRepository_retrieve, h404, hb64]
  · intro status content bytes cs h404 hb64 hutf hmatch
    simp [chromiumRepository_retrieve, h404, hb64, hutf, hmatch]

/-- Closed witness for `remote_version_provider_error_mapping`: a 404
with an empty body, the body `"QQ"` (incorrect base64 padding) and the
body `"aGVsbG8="` (base64 of `"hello"`, which is not a VERSION file). -/
theorem remote_version_provider_error_mapping_witness :
    chromiumRepository_retrieve (RepoHttp.resp 404 []) = Except.ok Response.doesNotExist ∧
    chromiumRepository_retrieve (RepoHttp.resp 200 [81, 81]) =
      Except.ok Response.continueSearch ∧
    chromiumRepository_retrieve
      (RepoHttp.resp 200 [97, 71, 86, 115, 98, 71, 56, 61]) =
      Except.ok Response.continueSearch := by
  refine ⟨?_, ?_, ?_⟩
  · exact remote_version_provider_error_mapping.2.1 []
  · exact remote_version_provider_error_mapping.2.2.1 200 [81, 81] (by decide) (by decide)
  · exact remote_version_provider_error_mapping.2.2.2.1 200
      [97, 71, 86, 115, 98, 71, 56, 61] [104, 101, 108, 108, 111]
      ['h', 'e', 'l', 'l', 'o'] (by decide) (by decide) (by decide) (by decide)

end Versions

namespace Files

theorem extractLoop_cached_toc_miss {v : Type}
    (archives : String → Option (List (ZipEntry v))) (bucketname : String)
    (paths : List String) (tocStore : String → Option String) (b : String)
    (hb : is_any_file_in_zip tocStore bucketname b paths = (true, none)) :
    ∀ (pre : List String) (post fetchLog : List String),
      (∀ j ∈ pre, archives j = none) → b ∉ fetchLog →
      (extractLoop archives bucketname paths tocStore (pre ++ b :: post) fetchLog).1 =
        Except.ok (Pipelines.Response.doesNotExist) ∧
      b ∉ (extractLoop archives bucketname paths tocStore (pre ++ b :: post) fetchLog).2.2 := by
  intro pre
  induction pre with
  | nil =>
    intro post fetchLog _ hblog
    refine ⟨?_, ?_⟩
    · simp [extractLoop, hb]
    · simpa [extractLoop, hb] using hblog
  | cons j pre' ih =>
    intro post fetchLog hpre hblog
    have hj : archives j = none := hpre j (List.mem_cons_self j pre')
    by_cases hcond :
        ((is_any_file_in_zip tocStore bucketname j paths).1 &&
          (is_any_file_in_zip tocStore bucketname j paths).2.isNone) = true
    · refine ⟨?_, ?_⟩
      · simp [extractLoop, hcond]
      · simpa [extractLoop, hcond] using hblog
    · have hne : b ≠ j := by
        intro e
        rw [← e, hb] at hcond
        exact hcond (by simp)
      have hblog' : b ∉ fetchLog ++ [j] := by
        simp only [List.mem_append, List.mem_singleton]
        exact fun hc => hc.elim hblog hne
      have hrec := ih post (fetchLog ++ [j])
        (fun x hx => hpre x (List.mem_cons_of_mem j hx)) hblog'
      refine ⟨?_, ?_⟩
      · simpa [extractLoop, hcond, hj] using hrec.1
      · simpa [extractLoop, hcond, hj] using hrec.2

/-- C8: a candidate archive blob whose table of contents is already
cached and lists none of the candidate full paths (base-directory
prefix + filename) makes `extract_from_zip_blob` return
`DOES_NOT_EXIST` without that archive blob ever being fetched; the
preceding candidates (necessarily unfetchable, or the loop would have
ended earlier) do not change this. -/
theorem zip_cached_toc_short_circuits {v : Type}
    (archives : String → Option (List (ZipEntry v))) (bucketname : String)
    (base_dirs : List String) (tocStore : String → Option String)
    (pre post : List String) (b filename : String)
    (hpre : ∀ j ∈ pre, archives j = none)
    (hb : is_any_file_in_zip tocStore bucketname b (base_dirs.map (· ++ filename)) =
      (true, none)) :
    (extract_from_zip_blob archives bucketname base_dirs tocStore
      (pre ++ b :: post) filename).1 = Except.ok Pipelines.Response.doesNotExist ∧
    b ∉ (extract_from_zip_blob archives bucketname base_dirs tocStore
      (pre ++ b :: post) filename).2.2 := by
  have := extractLoop_cached_toc_miss archives bucketname
    (base_dirs.map (· ++ filename)) tocStore b hb pre post [] hpre (by simp)
  simpa [extract_from_zip_blob] using this

/-- Closed witness for `zip_cached_toc_short_circuits`: the TOC of
`blob1` is cached and lists only `other.js`, so requesting `f.js` is a
confirmed absence with an empty fetch log. -/
theorem zip_cached_toc_short_circuits_witness :
    (extract_from_zip_blob (fun _ => (none : Option (List (ZipEntry String))))
      "chrome-unsigned" ["dir/"]
      (fun k => if k = "tocs/chrome-unsigned/blob1" then some "other.js\n" else none)
      ["blob1"] "f.js").1 = Except.ok Pipelines.Response.doesNotExist ∧
    "blob1" ∉ (extract_from_zip_blob (fun _ => (none : Option (List (ZipEntry String))))
      "chrome-unsigned" ["dir/"]
      (fun k => if k = "tocs/chrome-unsigned/blob1" then some "other.js\n" else none)
      ["blob1"] "f.js").2.2 :=
  zip_cached_toc_short_circuits (fun _ => none) "chrome-unsigned" ["dir/"]
    (fun k => if k = "tocs/chrome-unsigned/blob1" then some "other.js\n" else none)
    [] [] "blob1" "f.js" (by simp) (by decide)

end Files

namespace Versions

theorem matchHexCount_eq_true_iff :
    ∀ (cs : List Char) (n : Nat),
      matchHexCount n cs = true ↔ (cs.length = n ∧ cs.all hexLower = true) := by
  intro cs
  induction cs with
  | nil => intro n; cases n <;> simp [matchHexCount]
  | cons c cs ih =>
    intro n
    cases n with
    | zero => simp [matchHexCount]
    | succ m =>
      simp only [matchHexCount, Bool.and_eq_true, ih m, List.all_cons, List.length_cons,
        Nat.add_right_cancel_iff]
      tauto

/-- C10 counterexample: `is_valid_revision` accepts the 41-character
string made of 40 `a` characters and a trailing newline, because
Python's `$` also matches just before a newline at the end of the
string; the claim asserts every string of length 41 is rejected. -/
theorem is_valid_revision_length41_counterexample :
    (String.mk (List.replicate 40 'a' ++ ['\n'])).length = 41 ∧
    is_valid_revision (String.mk (List.replicate 40 'a' ++ ['\n'])) 40 = true :=
  ⟨by decide, by decide⟩

/-- C10 (amended): at length 40 the revision validator accepts exactly
the 40-character lowercase-hex strings and the 41-character strings
that are 40 lowercase-hex characters followed by one newline (Python
`$` matches before a trailing newline); in particular every
6-character string is rejected, and so is every string containing a
character outside `[0-9a-f]` other than that single trailing
newline. -/
theorem is_valid_revision_char40_characterization :
    (∀ s : String,
      is_valid_revision s 40 = true ↔
        ((s.data.length = 40 ∧ s.data.all hexLower = true) ∨
         (∃ t : List Char, s.data = t ++ ['\n'] ∧ t.length = 40 ∧ t.all hexLower = true))) ∧
    (∀ s : String, s.length = 6 → is_valid_revision s 40 = false) := by
  have hchar : ∀ s : String,
      is_valid_revision s 40 = true ↔
        ((s.data.length = 40 ∧ s.data.all hexLower = true) ∨
         (∃ t : List Char, s.data = t ++ ['\n'] ∧ t.length = 40 ∧ t.all hexLower = true)) := by
    intro s
    unfold is_valid_revision dollarAnchored
    rw [Bool.or_eq_true, matchHexCount_eq_true_iff]
    constructor
    · rintro (h | h)
      · exact Or.inl h
      · right
        cases hlast : s.data.getLast? with
        | none => rw [hlast] at h; cases h
        | some c =>
          rw [hlast] at h
          rw [Bool.and_eq_true, matchHexCount_eq_true_iff] at h
          obtain ⟨hc, hlen, hall⟩ := h
          have hne : s.data ≠ [] := by
            intro e; rw [e] at hlast; cases hlast
          refine ⟨s.data.dropLast, ?_, hlen, hall⟩
          have hgl : s.data.getLast hne = c := by
            rw [List.getLast?_eq_getLast s.data hne] at hlast
            exact (Option.some.injEq _ _).mp hlast
          have := List.dropLast_append_getLast hne
          rw [hgl] at this
          rw [← this]
          simp [of_decide_eq_true hc]
    · rintro (h | ⟨t, ht, hlen, hall⟩)
      · exact Or.inl h
      · right
        rw [ht]
        rw [List.getLast?_concat]
        simp [List.dropLast_concat, matchHexCount_eq_true_iff, hlen, hall]
  refine ⟨hchar, ?_⟩
  intro s h6
  rw [Bool.eq_false_iff]
  intro htrue
  rcases (hchar s).mp htrue with h | ⟨t, ht, hlen, _⟩
  · have : s.length = s.data.length := rfl
    omega
  · have : s.length = s.data.length := rfl
    have : s.data.length = t.length + 1 := by rw [ht]; simp
    omega

/-- Closed witness for `is_valid_revision_char40_characterization`. -/
theorem is_valid_revision_char40_characterization_witness :
    is_valid_revision "1b8b78f5838ed0b1c69bb4e51ea0252171854915" 40 = true ∧
    is_valid_revision "12af56" 40 = false := by
  constructor
  · exact (is_valid_revision_char40_characterization.1
      "1b8b78f5838ed0b1c69bb4e51ea0252171854915").mpr (Or.inl ⟨by decide, by decide⟩)
  · exact is_valid_revision_char40_characterization.2 "12af56" (by decide)

theorem digitChar_isDigit {m : Nat} (h : m < 10) : (Nat.digitChar m).isDigit = true := by
  interval_cases m <;> decide

theorem digitChar_val {m : Nat} (h : m < 10) : (Nat.digitChar m).toNat - 48 = m := by
  interval_cases m <;> decide

theorem natDecimalAux_digits :
    ∀ (fuel n : Nat), ∀ c ∈ natDecimalAux fuel n, c.isDigit = true := by
  intro fuel
  induction fuel with
  | zero => intro n c hc; simp [natDecimalAux] at hc
  | succ f ih =>
    intro n c hc
    by_cases hn : n = 0
    · simp [natDecimalAux, hn] at hc
    · simp only [natDecimalAux, if_neg hn, List.mem_cons] at hc
      rcases hc with rfl | hc
      · exact digitChar_isDigit (Nat.mod_lt _ (by norm_num))
      · exact ih (n / 10) c hc

theorem natDecimal_all_digit (n : Nat) : ∀ c ∈ natDecimal n, c.isDigit = true := by
  intro c hc
  unfold natDecimal at hc
  by_cases hn : n = 0
  · simp [hn] at hc; rw [hc]; decide
  · rw [if_neg hn, List.mem_reverse] at hc
    exact natDecimalAux_digits n n c hc

theorem digitsOnly_natDecimal (n : Nat) : digitsOnly (natDecimal n) = true := by
  rw [digitsOnly, List.all_eq_true]
  exact natDecimal_all_digit n

theorem natDecimal_ne_nil (n : Nat) : natDecimal n ≠ [] := by
  unfold natDecimal
  by_cases hn : n = 0
  · simp [hn]
  · obtain ⟨f, rfl⟩ : ∃ f, n = f + 1 := ⟨n - 1, by omega⟩
    simp [natDecimalAux, hn]

theorem dot_not_mem_natDecimal (n : Nat) : '.' ∉ natDecimal n := by
  intro h
  exact absurd (natDecimal_all_digit n '.' h) (by decide)

theorem natDecimalAux_foldl :
    ∀ (fuel n : Nat), n ≤ fuel → ∀ acc : Nat,
      List.foldl (fun acc c => acc * 10 + (c.toNat - 48)) acc
          ((natDecimalAux fuel n).reverse) =
        acc * 10 ^ (natDecimalAux fuel n).length + n := by
  intro fuel
  induction fuel with
  | zero =>
    intro n hn acc
    interval_cases n
    simp [natDecimalAux]
  | succ f ih =>
    intro n hn acc
    by_cases h0 : n = 0
    · simp [natDecimalAux, h0]
    · have hdiv : n / 10 ≤ f := by omega
      have hm : n % 10 < 10 := Nat.mod_lt _ (by norm_num)
      have e1 : n / 10 * 10 + n % 10 = n := by omega
      simp only [natDecimalAux, if_neg h0, List.reverse_cons, List.foldl_append,
        List.foldl_cons, List.foldl_nil, List.length_cons]
      rw [ih (n / 10) hdiv acc, digitChar_val hm, pow_succ]
      calc (acc * 10 ^ (natDecimalAux f (n / 10)).length + n / 10) * 10 + n % 10
          = acc * (10 ^ (natDecimalAux f (n / 10)).length * 10) +
              (n / 10 * 10 + n % 10) := by ring
        _ = acc * (10 ^ (natDecimalAux f (n / 10)).length * 10) + n := by rw [e1]

theorem digitsToNat_natDecimal (n : Nat) : digitsToNat (natDecimal n) = n := by
  by_cases h0 : n = 0
  · subst h0; decide
  · unfold natDecimal digitsToNat
    rw [if_neg h0]
    simpa using natDecimalAux_foldl n n (Nat.le_refl n) 0

theorem splitOnChar_of_not_mem {sep : Char} :
    ∀ cs : List Char, sep ∉ cs → splitOnChar sep cs = [cs] := by
  intro cs
  induction cs with
  | nil => intro _; rfl
  | cons c cs ih =>
    intro h
    have hc : ¬ c = sep := fun e => h (e ▸ List.mem_cons_self c cs)
    have hcs : sep ∉ cs := fun hx => h (List.mem_cons_of_mem c hx)
    simp [splitOnChar, hc, ih hcs]

theorem splitOnChar_append_sep {sep : Char} :
    ∀ (as bs : List Char), sep ∉ as →
      splitOnChar sep (as ++ sep :: bs) = as :: splitOnChar sep bs := by
  intro as
  induction as with
  | nil => intro bs _; simp [splitOnChar]
  | cons a as ih =>
    intro bs h
    have ha : ¬ a = sep := fun e => h (e ▸ List.mem_cons_self a as)
    have has : sep ∉ as := fun hx => h (List.mem_cons_of_mem a hx)
    simp [splitOnChar, ha, ih bs has]

theorem splitOnChar_four (A B C D : List Char)
    (hA : '.' ∉ A) (hB : '.' ∉ B) (hC : '.' ∉ C) (hD : '.' ∉ D) :
    splitOnChar '.' (A ++ '.' :: (B ++ '.' :: (C ++ '.' :: D))) = [A, B, C, D] := by
  rw [splitOnChar_append_sep A _ hA, splitOnChar_append_sep B _ hB,
    splitOnChar_append_sep C _ hC, splitOnChar_of_not_mem D hD]

theorem is_valid_version_decomposition (s : String)
    (h : is_valid_version s = Except.ok true) :
    ∃ M m b p : Nat,
      s.data = natDecimal M ++ '.' :: (natDecimal m ++ '.' :: (natDecimal b ++
        '.' :: natDecimal p)) ∧
      splitOnChar '.' s.data = [natDecimal M, natDecimal m, natDecimal b, natDecimal p] := by
  unfold is_valid_version at h
  by_cases hpat : versionPatternMatch s
  · rw [hpat] at h
    simp only [Bool.not_true, Bool.false_eq_true, if_false] at h
    cases hmap : (splitOnChar '.' s.data).mapM pyIntChars with
    | error e => rw [hmap] at h; cases h
    | ok nums =>
      rw [hmap] at h
      match nums, h with
      | [M, m, b, p], h =>
        have heq := of_decide_eq_true ((Except.ok.injEq _ _).mp h)
        have heq' : s.data = natDecimal M ++ '.' :: (natDecimal m ++ '.' :: (natDecimal b ++
            '.' :: natDecimal p)) := by
          rw [heq]; simp [List.cons_append, List.append_assoc]
        refine ⟨M, m, b, p, heq', ?_⟩
        rw [heq']
        exact splitOnChar_four _ _ _ _ (dot_not_mem_natDecimal M) (dot_not_mem_natDecimal m)
          (dot_not_mem_natDecimal b) (dot_not_mem_natDecimal p)
  · rw [eq_false_of_ne_true hpat] at h
    simp at h

end Versions

namespace Files

open Pipelines Versions

/-- C9: for every valid version, the current-archive provider's
candidate list enumerates the same version with its patch component
decremented from its value `p` down to `0`, in descending order; in
particular for `9.0.12.3` it is exactly
`["9.0.12.3", "9.0.12.2", "9.0.12.1", "9.0.12.0"]` and for `9.0.12.0`
exactly `["9.0.12.0"]` (and the blob names are these candidates
instantiated in the fixed artifact path). -/
theorem chromeUnsigned_candidate_patch_enumeration :
    (∀ s : String, is_valid_version s = Except.ok true →
      ∃ M m b p : Nat,
        s.data = natDecimal M ++ '.' :: (natDecimal m ++ '.' :: (natDecimal b ++
          '.' :: natDecimal p)) ∧
        looseVersionPatch s = some p ∧
        chromeUnsigned_patch_versions s = Except.ok
          (((List.range (p + 1)).reverse).map fun k =>
            String.mk (natDecimal M ++ '.' :: (natDecimal m ++ '.' :: (natDecimal b ++
              '.' :: natDecimal k))))) ∧
    chromeUnsigned_patch_versions "9.0.12.3" =
      Except.ok ["9.0.12.3", "9.0.12.2", "9.0.12.1", "9.0.12.0"] ∧
    chromeUnsigned_patch_versions "9.0.12.0" = Except.ok ["9.0.12.0"] ∧
    chromeUnsigned_get_blobnames (some "9.0.12.3") = Except.ok
      ["desktop-5c0tCh/9.0.12.3/linux64/devtools-frontend.zip",
       "desktop-5c0tCh/9.0.12.2/linux64/devtools-frontend.zip",
       "desktop-5c0tCh/9.0.12.1/linux64/devtools-frontend.zip",
       "desktop-5c0tCh/9.0.12.0/linux64/devtools-frontend.zip"] := by
  refine ⟨?_, by decide, by decide, by decide⟩
  intro s hvalid
  obtain ⟨M, m, b, p, heq, hsplit⟩ := is_valid_version_decomposition s hvalid
  have hloose : looseVersionPatch s = some p := by
    unfold looseVersionPatch
    rw [hsplit]
    simp only [List.map_cons, List.map_nil]
    rw [if_pos ⟨natDecimal_ne_nil M, digitsOnly_natDecimal M⟩,
      if_pos ⟨natDecimal_ne_nil m, digitsOnly_natDecimal m⟩,
      if_pos ⟨natDecimal_ne_nil b, digitsOnly_natDecimal b⟩,
      if_pos ⟨natDecimal_ne_nil p, digitsOnly_natDecimal p⟩]
    simp [digitsToNat_natDecimal]
  refine ⟨M, m, b, p, heq, hloose, ?_⟩
  unfold chromeUnsigned_patch_versions
  rw [hloose]
  simp [hsplit, joinChar]

/-- Closed witness for `chromeUnsigned_candidate_patch_enumeration`. -/
theorem chromeUnsigned_candidate_patch_enumeration_witness :
    is_valid_version "9.0.12.3" = Except.ok true ∧
    ∃ M m b p : Nat,
      "9.0.12.3".data = natDecimal M ++ '.' :: (natDecimal m ++ '.' :: (natDecimal b ++
        '.' :: natDecimal p)) ∧
      looseVersionPatch "9.0.12.3" = some p ∧
      chromeUnsigned_patch_versions "9.0.12.3" = Except.ok
        (((List.range (p + 1)).reverse).map fun k =>
          String.mk (natDecimal M ++ '.' :: (natDecimal m ++ '.' :: (natDecimal b ++
            '.' :: natDecimal k)))) :=
  ⟨by decide, chromeUnsigned_candidate_patch_enumeration.1 "9.0.12.3" (by decide)⟩

end Files


